import Mathlib

/-!
# QuickQuotes — verification of the quote lifecycle, pricing and reporting logic

Shallow embedding of the core logic of the QuickQuotes app:

* the quote-collection state and the stage-transition handlers of
  `src/screens/DashboardScreen.js` (send / resend / accept / markDepositPaid /
  markWorkComplete / markFinalPayment / delete);
* the pricing calculations of the quote form (`calculateItemTotal`,
  `subtotal`, `vatAmount`, `serviceChargeAmount`, `total`, `depositAmount`)
  and of the invoice PDF generator (`src/utils/pdfGenerator.js`);
* the monthly reporting metrics of `calculateMonthlyMetrics`
  (deposit/final payment mappings and the quote conversion rate);
* the team-invitation e-mail matcher (`find_team_invitation` SQL function and
  the `verifyEmail` client logic).

JS numbers are modelled as `ℚ`; fields that may be `undefined` (or `NaN`)
are modelled as `Option`; JS truthiness tests on numeric fields
(`x ? … : …`, `x || d`) are modelled explicitly.  Calendar dates are
modelled by their `(year, month, day)` components, with `month` the 0-based
month exactly as returned by JS `Date.getMonth()`.
-/

namespace QuickQuotes

/-- A calendar date as the JS `Date` accessors expose it: `year` is
`getFullYear()`, `month` is the 0-based `getMonth()`, `day` is `getDate()`.
The app only ever builds dates from ISO `YYYY-MM-DD` strings
(`new Date().toISOString().split('T')[0]`), which this triple represents
bijectively. -/
structure JDate where
  year : Int
  month : Nat
  day : Nat
deriving DecidableEq, Repr

/-- A quote line item (description, quantity, unit price); the description is
irrelevant to every computation and is omitted. -/
structure LineItem where
  quantity : ℚ
  price : ℚ
deriving DecidableEq, Repr

/-- A quote record, with the fields the lifecycle, reporting and pricing code
reads.  `sentDates` entries are `Option JDate` because the resend fallback
`quoteToResend.sentDates || [quoteToResend.date]` can put an `undefined`
`date` into the array. -/
structure Quote where
  id : String
  amount : Option ℚ
  date : Option JDate
  sentDates : Option (List (Option JDate))
  acceptedDate : Option JDate
  depositDate : Option JDate
  completedDate : Option JDate
  finalPaymentDate : Option JDate
  isPaid : Bool
  depositAmount : Option ℚ
  depositPercentage : Option ℚ
  vatPercentage : Option ℚ
  lineItems : List LineItem
deriving DecidableEq, Repr

/-- The five stage buckets of the dashboard state (`initialMockData` keys:
Draft, Sent, Accepted, 'Scheduled Work', Complete). -/
structure QuoteCollection where
  Draft : List Quote
  Sent : List Quote
  Accepted : List Quote
  ScheduledWork : List Quote
  Complete : List Quote
deriving DecidableEq, Repr

/-- The empty collection (`initialMockData`). -/
def emptyQC : QuoteCollection := ⟨[], [], [], [], []⟩

/-- All quotes of the collection, bucket by bucket. -/
def QuoteCollection.allQuotes (qc : QuoteCollection) : List Quote :=
  qc.Draft ++ qc.Sent ++ qc.Accepted ++ qc.ScheduledWork ++ qc.Complete

/-- All quote ids of the collection, bucket by bucket. -/
def QuoteCollection.allIds (qc : QuoteCollection) : List String :=
  qc.allQuotes.map Quote.id

/-- `JS x || d` for an optional numeric value `x` that was read with
`parseFloat`: `undefined`/`NaN` and `0` both fall back to the default. -/
def jsNumOr (o : Option ℚ) (d : ℚ) : ℚ :=
  match o with
  | some a => if a = 0 then d else a
  | none => d

/-- JS truthiness of an optional numeric field: present and non-zero. -/
def jsTruthyNum (o : Option ℚ) : Bool :=
  match o with
  | some a => a != 0
  | none => false

/-! ## Lifecycle transition handlers (src/screens/DashboardScreen.js) -/

/-- The `send_quote` route handler: prepend the sent quote to `Sent`; when it
originated from a draft (`fromDraftId` set), filter that id out of `Draft`. -/
def sendQuoteHandler (qc : QuoteCollection) (sentQuote : Quote)
    (fromDraftId : Option String) : QuoteCollection :=
  let st := { qc with Sent := sentQuote :: qc.Sent }
  match fromDraftId with
  | some fid => { st with Draft := st.Draft.filter (fun q => !(q.id == fid)) }
  | none => st

/-- `deleteQuote` (Draft tab only): filter the id out of `Draft`. -/
def deleteQuote (qc : QuoteCollection) (quoteId : String) : QuoteCollection :=
  { qc with Draft := qc.Draft.filter (fun q => !(q.id == quoteId)) }

/-- `resendQuote`: if the id is found in `Sent`, append today to its
`sentDates` (falling back to `[quote.date]` when the array is absent) and
replace it in place; otherwise do nothing. -/
def resendQuote (qc : QuoteCollection) (quoteId : String) (today : JDate) :
    QuoteCollection :=
  match qc.Sent.find? (fun q => q.id == quoteId) with
  | none => qc
  | some q =>
      let updatedQuote :=
        { q with sentDates := some ((q.sentDates.getD [q.date]) ++ [some today]) }
      { qc with
          Sent := qc.Sent.map (fun x => if x.id == quoteId then updatedQuote else x) }

/-- `acceptQuote`: if the id is found in `Sent`, stamp `acceptedDate`,
prepend to `Accepted` and filter the id out of `Sent` in one state update. -/
def acceptQuote (qc : QuoteCollection) (quoteId : String) (today : JDate) :
    QuoteCollection :=
  match qc.Sent.find? (fun q => q.id == quoteId) with
  | none => qc
  | some q =>
      let acceptedQuote := { q with acceptedDate := some today }
      { qc with
          Accepted := acceptedQuote :: qc.Accepted
          Sent := qc.Sent.filter (fun x => !(x.id == quoteId)) }

/-- `markDepositPaid`: if the id is found in `Accepted`, stamp `depositDate`,
prepend to `ScheduledWork` and filter the id out of `Accepted`. -/
def markDepositPaid (qc : QuoteCollection) (quoteId : String) (today : JDate) :
    QuoteCollection :=
  match qc.Accepted.find? (fun q => q.id == quoteId) with
  | none => qc
  | some q =>
      let updatedQuote := { q with depositDate := some today }
      { qc with
          ScheduledWork := updatedQuote :: qc.ScheduledWork
          Accepted := qc.Accepted.filter (fun x => !(x.id == quoteId)) }

/-- `markWorkComplete`: if the id is found in `ScheduledWork`, stamp
`completedDate`, set `isPaid := false`, prepend to `Complete` and filter the
id out of `ScheduledWork`. -/
def markWorkComplete (qc : QuoteCollection) (quoteId : String) (today : JDate) :
    QuoteCollection :=
  match qc.ScheduledWork.find? (fun q => q.id == quoteId) with
  | none => qc
  | some q =>
      let updatedQuote := { q with completedDate := some today, isPaid := false }
      { qc with
          Complete := updatedQuote :: qc.Complete
          ScheduledWork := qc.ScheduledWork.filter (fun x => !(x.id == quoteId)) }

/-- `markFinalPayment`: if the id is found in `Complete`, stamp
`finalPaymentDate`, set `isPaid := true`, and replace it in place in
`Complete` (the quote stays in that bucket).  Note there is no `isPaid`
precondition in the handler itself. -/
def markFinalPayment (qc : QuoteCollection) (quoteId : String) (today : JDate) :
    QuoteCollection :=
  match qc.Complete.find? (fun q => q.id == quoteId) with
  | none => qc
  | some q =>
      let updatedQuote := { q with finalPaymentDate := some today, isPaid := true }
      { qc with
          Complete := qc.Complete.map (fun x => if x.id == quoteId then updatedQuote else x) }

/-- The success alert shown by `resendQuote`; `none` when the id is not in
`Sent` (the handler body is skipped entirely). -/
def resendQuoteAlert (qc : QuoteCollection) (quoteId : String) : Option String :=
  if (qc.Sent.find? (fun q => q.id == quoteId)).isSome then
    some "Quote resent successfully!"
  else none

/-- The success alert shown by `acceptQuote`; `none` when the id is not in `Sent`. -/
def acceptQuoteAlert (qc : QuoteCollection) (quoteId : String) : Option String :=
  if (qc.Sent.find? (fun q => q.id == quoteId)).isSome then
    some "Quote marked as accepted!"
  else none

/-- The success alert shown by `markDepositPaid`; `none` when the id is not in
`Accepted`. -/
def markDepositPaidAlert (qc : QuoteCollection) (quoteId : String) : Option String :=
  if (qc.Accepted.find? (fun q => q.id == quoteId)).isSome then
    some "Deposit marked as paid!"
  else none

/-- The success alert shown by `markWorkComplete`; `none` when the id is not in
`ScheduledWork`. -/
def markWorkCompleteAlert (qc : QuoteCollection) (quoteId : String) : Option String :=
  if (qc.ScheduledWork.find? (fun q => q.id == quoteId)).isSome then
    some "Work marked as complete!"
  else none

/-- The success alert shown by `markFinalPayment`; `none` when the id is not in
`Complete`. -/
def markFinalPaymentAlert (qc : QuoteCollection) (quoteId : String) : Option String :=
  if (qc.Complete.find? (fun q => q.id == quoteId)).isSome then
    some "Final payment marked as received!"
  else none

/-- The `onFinalPayment` wiring of the quote card (`DashboardScreen.js`,
`onFinalPayment={activeTab === 'Complete' && !item.isPaid ? markFinalPayment : null}`):
the operation is offered exactly on the Complete tab for unpaid quotes. -/
def onFinalPaymentEnabled (activeTab : String) (item : Quote) : Bool :=
  activeTab == "Complete" && !item.isPaid

/-! ## Transition sequences (for the stage invariant) -/

/-- One dashboard transition, with the arguments the corresponding handler
receives. -/
inductive Op where
  | send (quote : Quote) (fromDraftId : Option String)
  | resend (quoteId : String) (today : JDate)
  | accept (quoteId : String) (today : JDate)
  | markDeposit (quoteId : String) (today : JDate)
  | markComplete (quoteId : String) (today : JDate)
  | markFinal (quoteId : String) (today : JDate)
  | deleteDraft (quoteId : String)
deriving DecidableEq, Repr

/-- Apply one transition to the collection. -/
def applyOp (qc : QuoteCollection) : Op → QuoteCollection
  | .send q fid => sendQuoteHandler qc q fid
  | .resend i d => resendQuote qc i d
  | .accept i d => acceptQuote qc i d
  | .markDeposit i d => markDepositPaid qc i d
  | .markComplete i d => markWorkComplete qc i d
  | .markFinal i d => markFinalPayment qc i d
  | .deleteDraft i => deleteQuote qc i

/-- Apply a sequence of transitions from left to right. -/
def applyOps (qc : QuoteCollection) : List Op → QuoteCollection
  | [] => qc
  | op :: rest => applyOps (applyOp qc op) rest

/-- Well-formedness of one transition in a given state.  Only `send` is
restricted: the quote it introduces must carry a fresh id, or (the
edit-then-send path of the quote form, where the sent quote keeps the draft's
id) its id must equal `fromDraftId` and sit in the Draft bucket.  The quote
form guarantees this: it generates ids from `Date.now()` for new quotes and
reuses `initialQuote.id` with `fromDraftId = initialQuote.id` when editing. -/
def wfOp (qc : QuoteCollection) : Op → Bool
  | .send q fid =>
      decide (q.id ∉ qc.allIds) ||
        (decide (fid = some q.id) && decide (q.id ∈ qc.Draft.map Quote.id))
  | _ => true

/-- Well-formedness of a transition sequence: each step is well-formed in the
state it is applied to. -/
def wfOps (qc : QuoteCollection) : List Op → Bool
  | [] => true
  | op :: rest => wfOp qc op && wfOps (applyOp qc op) rest

/-- The stage invariant: every quote id occurs in exactly one of the five
stage buckets (no id occurs twice anywhere in the collection). -/
def StageInvariant (qc : QuoteCollection) : Prop :=
  qc.allIds.Nodup

instance (qc : QuoteCollection) : Decidable (StageInvariant qc) := by
  unfold StageInvariant; infer_instance

/-! ## PricingEngine (quote form screen, src QuoteFormScreen) -/

/-- The fixed platform service charge percentage
(`SERVICE_CHARGE_PERCENTAGE = 0.5`). -/
def SERVICE_CHARGE_PERCENTAGE : ℚ := 1/2

/-- `Number(x.toFixed(2))`: rounding half-up to 2 decimal places, the
reference rounding behaviour the spec fixes for every named quantity. -/
def round2 (x : ℚ) : ℚ := (⌊x * 100 + 1/2⌋ : ℚ) / 100

namespace Pricing

/-- `calculateItemTotal`: quantity times price, rounded to 2 decimals. -/
def calculateItemTotal (item : LineItem) : ℚ :=
  round2 (item.quantity * item.price)

/-- `subtotal`: sum of the rounded item totals, rounded. -/
def subtotal (lineItems : List LineItem) : ℚ :=
  round2 ((lineItems.map calculateItemTotal).sum)

/-- `vatAmount = Number((subtotal * (vatPercentage / 100)).toFixed(2))`. -/
def vatAmount (lineItems : List LineItem) (vatPercentage : ℚ) : ℚ :=
  round2 (subtotal lineItems * (vatPercentage / 100))

/-- `serviceChargeAmount`, with the fixed 0.5 % service charge. -/
def serviceChargeAmount (lineItems : List LineItem) : ℚ :=
  round2 (subtotal lineItems * (SERVICE_CHARGE_PERCENTAGE / 100))

/-- `total = Number((subtotal + vatAmount + serviceChargeAmount).toFixed(2))`. -/
def total (lineItems : List LineItem) (vatPercentage : ℚ) : ℚ :=
  round2 (subtotal lineItems + vatAmount lineItems vatPercentage +
    serviceChargeAmount lineItems)

/-- `depositAmount = Number((total * (depositPercentage / 100)).toFixed(2))`. -/
def depositAmount (lineItems : List LineItem) (vatPercentage depositPercentage : ℚ) : ℚ :=
  round2 (total lineItems vatPercentage * (depositPercentage / 100))

/-- `finalPaymentAmount = totalAmount - depositAmount` (the final-payment
mapping of `calculateMonthlyMetrics` and `finalAmount` of the invoice PDF):
the remainder is never rounded independently. -/
def finalPaymentAmount (totalAmount depositAmount : ℚ) : ℚ :=
  totalAmount - depositAmount

end Pricing

/-! ## Invoice PDF amounts (src/utils/pdfGenerator.js, createInvoiceHTML) -/

namespace Invoice

/-- `subtotal = quote.lineItems.reduce((sum, item) => sum + item.quantity * item.price, 0)`
(no rounding in the invoice path). -/
def subtotal (lineItems : List LineItem) : ℚ :=
  (lineItems.map (fun item => item.quantity * item.price)).sum

/-- `total = subtotal + vatAmount + serviceChargeAmount`. -/
def total (lineItems : List LineItem) (vatPercentage serviceChargePercentage : ℚ) : ℚ :=
  subtotal lineItems + subtotal lineItems * (vatPercentage / 100) +
    subtotal lineItems * (serviceChargePercentage / 100)

/-- `depositAmount = total * (quote.depositPercentage / 100)`. -/
def depositAmount (lineItems : List LineItem)
    (vatPercentage serviceChargePercentage depositPercentage : ℚ) : ℚ :=
  total lineItems vatPercentage serviceChargePercentage * (depositPercentage / 100)

/-- `finalAmount = total - depositAmount`. -/
def finalAmount (lineItems : List LineItem)
    (vatPercentage serviceChargePercentage depositPercentage : ℚ) : ℚ :=
  total lineItems vatPercentage serviceChargePercentage -
    depositAmount lineItems vatPercentage serviceChargePercentage depositPercentage

end Invoice

/-! ## ReportingAggregator (calculateMonthlyMetrics, ReportsScreen) -/

/-- `new Date(d).getMonth() === month && new Date(d).getFullYear() === year`
for an optional date field: an absent field parses to an invalid date whose
`NaN` components compare unequal to everything, so it never falls in any
period (both the guarded `if (quote.date)` filters and the unguarded ones of
the source behave this way). -/
def inMonth (od : Option JDate) (month : Nat) (year : Int) : Bool :=
  match od with
  | some d => d.month == month && d.year == year
  | none => false

/-- The derived deposit amount of the deposit-payment mappings:
`quote.depositAmount ? parseFloat(quote.depositAmount) : totalAmount * depositPercentage / 100`,
with `totalAmount = parseFloat(quote.amount) || 0` and
`depositPercentage = parseFloat(quote.depositPercentage) || 50`. -/
def derivedDepositAmount (q : Quote) : ℚ :=
  let totalAmount := jsNumOr q.amount 0
  let depositPercentage := jsNumOr q.depositPercentage 50
  if jsTruthyNum q.depositAmount then q.depositAmount.getD 0
  else totalAmount * depositPercentage / 100

/-- A row of the deposit-payments list: the spread quote with its
`depositAmount` and `paymentAmount` fields overwritten by the derived
deposit amount. -/
structure DepositEntry where
  base : Quote
  depositAmount : ℚ
  paymentAmount : ℚ
deriving DecidableEq, Repr

/-- The deposit-payment mapping applied to each quote whose `depositDate`
falls in the period. -/
def mapDepositPayment (q : Quote) : DepositEntry :=
  ⟨q, derivedDepositAmount q, derivedDepositAmount q⟩

/-- Deposit payments of the period from the Scheduled Work bucket. -/
def depositPaymentsSW (qc : QuoteCollection) (month : Nat) (year : Int) :
    List DepositEntry :=
  (qc.ScheduledWork.filter (fun q => inMonth q.depositDate month year)).map
    mapDepositPayment

/-- Deposit payments of the period from the Complete bucket
(`completedDeposits`). -/
def depositPaymentsComplete (qc : QuoteCollection) (month : Nat) (year : Int) :
    List DepositEntry :=
  (qc.Complete.filter (fun q => inMonth q.depositDate month year)).map
    mapDepositPayment

/-- `allDepositPayments = [...depositPayments, ...completedDeposits]`. -/
def allDepositPayments (qc : QuoteCollection) (month : Nat) (year : Int) :
    List DepositEntry :=
  depositPaymentsSW qc month year ++ depositPaymentsComplete qc month year

/-- The second deposit mapping, applied when building `combinedPayments`:
`depositAmount = payment.depositAmount || (totalAmount * depositPercentage / 100)`
followed by `parseFloat(...) || 0`.  The entry's `depositAmount` is the
numeric value produced by the first mapping. -/
def combinedDepositAmount (e : DepositEntry) : ℚ :=
  let totalAmount := jsNumOr e.base.amount 0
  let depositPercentage := jsNumOr e.base.depositPercentage 50
  let depositAmount := if e.depositAmount = 0
    then totalAmount * depositPercentage / 100 else e.depositAmount
  if depositAmount = 0 then 0 else depositAmount

/-- A row of the final-payments list: the spread quote with its derived
`depositAmount`, `finalPaymentAmount` and `paymentAmount`. -/
structure FinalEntry where
  base : Quote
  depositAmount : ℚ
  finalPaymentAmount : ℚ
  paymentAmount : ℚ
deriving DecidableEq, Repr

/-- The final-payment mapping of `calculateMonthlyMetrics`: the deposit is
derived exactly as in the deposit mapping, and
`finalPaymentAmount = totalAmount - depositAmount`. -/
def mapFinalPayment (q : Quote) : FinalEntry :=
  let totalAmount := jsNumOr q.amount 0
  let depositAmount := derivedDepositAmount q
  let finalPaymentAmount := totalAmount - depositAmount
  ⟨q, depositAmount, finalPaymentAmount, finalPaymentAmount⟩

/-- Final payments of the period: Complete quotes whose `finalPaymentDate`
falls in the period, mapped. -/
def finalPayments (qc : QuoteCollection) (month : Nat) (year : Int) :
    List FinalEntry :=
  (qc.Complete.filter (fun q => inMonth q.finalPaymentDate month year)).map
    mapFinalPayment

/-- `sentQuotes`: Sent quotes whose `date` falls in the period. -/
def sentQuotesIn (qc : QuoteCollection) (month : Nat) (year : Int) : List Quote :=
  qc.Sent.filter (fun q => inMonth q.date month year)

/-- `allSentInMonth`: quotes of the Sent, Accepted, Scheduled Work and
Complete buckets whose original `date` falls in the period. -/
def allSentInMonth (qc : QuoteCollection) (month : Nat) (year : Int) : List Quote :=
  sentQuotesIn qc month year ++
    qc.Accepted.filter (fun q => inMonth q.date month year) ++
    qc.ScheduledWork.filter (fun q => inMonth q.date month year) ++
    qc.Complete.filter (fun q => inMonth q.date month year)

/-- `totalAcceptedQuotes`: quotes now in Accepted, Scheduled Work or Complete
whose original `date` falls in the period. -/
def totalAcceptedQuotes (qc : QuoteCollection) (month : Nat) (year : Int) : Nat :=
  (qc.Accepted.filter (fun q => inMonth q.date month year)).length +
    (qc.ScheduledWork.filter (fun q => inMonth q.date month year)).length +
    (qc.Complete.filter (fun q => inMonth q.date month year)).length

/-- `quoteConversion = allSentInMonth.length > 0 ? (totalAcceptedQuotes / allSentInMonth.length) * 100 : 0`. -/
def quoteConversion (qc : QuoteCollection) (month : Nat) (year : Int) : ℚ :=
  if 0 < (allSentInMonth qc month year).length then
    ((totalAcceptedQuotes qc month year : ℚ) /
      ((allSentInMonth qc month year).length : ℚ)) * 100
  else 0

/-- The conversion rate as the spec words it: count of quotes whose original
`date` falls in the period and whose current stage is Accepted, Scheduled
Work or Complete, divided by the count of quotes whose original `date` falls
in the period across the stages Sent, Accepted, Scheduled Work and Complete,
times 100; `0` when the denominator is `0`. -/
def quoteConversionSpec (qc : QuoteCollection) (month : Nat) (year : Int) : ℚ :=
  let num := (qc.Accepted ++ qc.ScheduledWork ++ qc.Complete).countP
    (fun q => inMonth q.date month year)
  let den := (qc.Sent ++ qc.Accepted ++ qc.ScheduledWork ++ qc.Complete).countP
    (fun q => inMonth q.date month year)
  if den = 0 then 0 else ((num : ℚ) / (den : ℚ)) * 100

/-! ## TeamInvitationMatcher (find_team_invitation SQL, verifyEmail) -/

/-- One row of `invited_team_members`: the e-mail may be `NULL`, the business
id is the value the matcher resolves to. -/
structure Invitation where
  email : Option String
  business_id : String
deriving DecidableEq, Repr

/-- JS truthiness of an optional string field (`inv.email && …`):
present and non-empty. -/
def jsTruthyStr (o : Option String) : Bool :=
  match o with
  | some s => !s.isEmpty
  | none => false

/-- `needle` occurs as a prefix of `hay`. -/
def charsPrefix : List Char → List Char → Bool
  | [], _ => true
  | _ :: _, [] => false
  | a :: as, b :: bs => a == b && charsPrefix as bs

/-- `needle` occurs as a contiguous sublist of `hay`. -/
def charsContain (needle : List Char) : List Char → Bool
  | [] => needle.isEmpty
  | c :: cs => charsPrefix needle (c :: cs) || charsContain needle cs

/-- `s.includes(sub)` / SQL `s LIKE '%' || sub || '%'`. -/
def strContains (s sub : String) : Bool :=
  charsContain sub.data s.data

/-- JS `s.toLowerCase()` / SQL `LOWER(s)`: character-wise lower-casing of the
string's characters. -/
def strLower (s : String) : String :=
  ⟨s.data.map Char.toLower⟩

/-- JS `s.trim()`: strip whitespace from both ends. -/
def strTrim (s : String) : String :=
  ⟨((s.data.dropWhile Char.isWhitespace).reverse.dropWhile
      Char.isWhitespace).reverse⟩

/-- `SPLIT_PART(s, '@', 1)` / `s.split('@')[0]`: the portion before the first
`'@'` (the whole string when there is none). -/
def localPart (s : String) : String :=
  (s.splitOn "@").headD s

/-- Tier 1 of the SQL matcher: `LOWER(email) = LOWER(email_param)`
(`NULL` e-mails never match). -/
def tier1 (emailParam : String) (inv : Invitation) : Bool :=
  match inv.email with
  | some s => strLower s == strLower emailParam
  | none => false

/-- Tier 2: substring containment in either direction,
`LOWER(email) LIKE '%param%' OR param LIKE '%LOWER(email)%'`. -/
def tier2 (emailParam : String) (inv : Invitation) : Bool :=
  match inv.email with
  | some s => strContains (strLower s) (strLower emailParam) ||
      strContains (strLower emailParam) (strLower s)
  | none => false

/-- Tier 3: case-insensitive equality of the local parts,
`LOWER(SPLIT_PART(email,'@',1)) = LOWER(SPLIT_PART(email_param,'@',1))`. -/
def tier3 (emailParam : String) (inv : Invitation) : Bool :=
  match inv.email with
  | some s => strLower (localPart s) == strLower (localPart emailParam)
  | none => false

/-- A row satisfies the `find_team_invitation` `UNION` iff it matches at
least one of the three tiers. -/
def anyTier (emailParam : String) (inv : Invitation) : Bool :=
  tier1 emailParam inv || tier2 emailParam inv || tier3 emailParam inv

/-- The possible result lists of the `find_team_invitation` stored procedure.
The SQL is `SELECT … UNION SELECT … UNION SELECT … LIMIT 10` with no
`ORDER BY`, so only the *set* of rows is determined: the result is some
duplicate-free list of at most 10 rows drawn from the union of the three
tiers, empty exactly when no stored row matches any tier (`LIMIT` only
truncates a non-empty result).  The row order — in particular whether an
exact-tier row comes before a substring-tier row — is not specified. -/
def IsUnionResult (store : List Invitation) (emailParam : String)
    (rpc : List Invitation) : Prop :=
  rpc.Nodup ∧
  (∀ x ∈ rpc, x ∈ store.filter (anyTier emailParam)) ∧
  (rpc = [] ↔ store.filter (anyTier emailParam) = []) ∧
  rpc.length ≤ 10

instance (store : List Invitation) (emailParam : String)
    (rpc : List Invitation) : Decidable (IsUnionResult store emailParam rpc) := by
  unfold IsUnionResult; infer_instance

/-- The client-side exact match of `verifyEmail`:
`inv.email && inv.email.toLowerCase() === trimmedEmail`. -/
def clientExact (trimmedEmail : String) (inv : Invitation) : Bool :=
  jsTruthyStr inv.email && strLower (inv.email.getD "") == trimmedEmail

/-- The client-side partial match of `verifyEmail`:
`inv.email && (inv.email.toLowerCase().includes(trimmedEmail) || trimmedEmail.includes(inv.email.toLowerCase()))`. -/
def clientPartialMatch (trimmedEmail : String) (inv : Invitation) : Bool :=
  jsTruthyStr inv.email &&
    (strContains (strLower (inv.email.getD "")) trimmedEmail ||
      strContains trimmedEmail (strLower (inv.email.getD "")))

/-- The final `.ilike('email', '%trimmedEmail%')` query of `verifyEmail`
(case-insensitive containment of the pattern in the stored e-mail). -/
def ilikeMatches (trimmedEmail : String) (store : List Invitation) :
    List Invitation :=
  store.filter (fun inv =>
    match inv.email with
    | some s => strContains (strLower s) (strLower trimmedEmail)
    | none => false)

/-- `verifyEmail`: normalize the queried e-mail, take the first row of the
RPC result (`rpcData[0].business_id`) when the RPC returned anything;
otherwise fall back to a client-side exact match, then a client-side partial
match, then an `ILIKE` query; `none` when nothing matches (the "No Invitation
Found" alert, with no state change).  An all-whitespace e-mail is rejected up
front.  `rpcData` is the row list the RPC call returned, passed explicitly
because `find_team_invitation` determines only the set of rows, never their
order (`IsUnionResult`). -/
def verifyEmail (store rpcData : List Invitation) (email : String) :
    Option String :=
  if (strTrim email).isEmpty then none
  else
    match rpcData.head? with
    | some inv => some inv.business_id
    | none =>
        match store.find? (clientExact (strLower (strTrim email))) with
        | some inv => some inv.business_id
        | none =>
            match store.find? (clientPartialMatch (strLower (strTrim email))) with
            | some inv => some inv.business_id
            | none =>
                match (ilikeMatches (strLower (strTrim email)) store).head? with
                | some inv => some inv.business_id
                | none => none

/-- The three-tier resolution as the spec words it: normalize the e-mail,
then try the exact tier, the substring tier and the local-part tier in that
order, stopping at the first tier with a result. -/
def tieredMatch (store : List Invitation) (email : String) : Option String :=
  match store.find? (tier1 (strLower (strTrim email))) with
  | some inv => some inv.business_id
  | none =>
      match store.find? (tier2 (strLower (strTrim email))) with
      | some inv => some inv.business_id
      | none =>
          match store.find? (tier3 (strLower (strTrim email))) with
          | some inv => some inv.business_id
          | none => none

/-- The sent-quote object built by `handleSendQuote` in the quote form: a
fresh record carrying the form data, with `date` and `sentDates` stamped with
today and no later lifecycle timestamps (for an edited draft the id is
`initialQuote.id`, otherwise a fresh `s${Date.now()}`). -/
def mkSentQuote (id : String) (amount : ℚ) (vatPercentage depositPercentage : ℚ)
    (lineItems : List LineItem) (today : JDate) : Quote :=
  { id := id
    amount := some amount
    date := some today
    sentDates := some [some today]
    acceptedDate := none
    depositDate := none
    completedDate := none
    finalPaymentDate := none
    isPaid := false
    depositAmount := none
    depositPercentage := some depositPercentage
    vatPercentage := some vatPercentage
    lineItems := lineItems }

end QuickQuotes

namespace QuickQuotes

/-! # Claims -/

/-- **C2** — In every computation site of the final payment, the identity
`finalPaymentAmount + depositAmount = total` holds exactly: in the pricing
engine (where `finalPaymentAmount` is `total - depositAmount` with no
independent rounding of the remainder), in the final-payment mapping of
`calculateMonthlyMetrics` (against the quote's stored total), and in the
invoice PDF amounts, for every list of line items and every vat/deposit
percentage. -/
theorem C2_money_invariant :
    (∀ (lineItems : List LineItem) (vatPercentage depositPercentage : ℚ),
      Pricing.finalPaymentAmount (Pricing.total lineItems vatPercentage)
          (Pricing.depositAmount lineItems vatPercentage depositPercentage) +
        Pricing.depositAmount lineItems vatPercentage depositPercentage =
        Pricing.total lineItems vatPercentage) ∧
    (∀ q : Quote,
      (mapFinalPayment q).finalPaymentAmount + (mapFinalPayment q).depositAmount =
        jsNumOr q.amount 0) ∧
    (∀ (lineItems : List LineItem) (vatPercentage serviceChargePercentage depositPercentage : ℚ),
      Invoice.finalAmount lineItems vatPercentage serviceChargePercentage depositPercentage +
        Invoice.depositAmount lineItems vatPercentage serviceChargePercentage depositPercentage =
        Invoice.total lineItems vatPercentage serviceChargePercentage) := by
  refine ⟨fun lineItems v d => ?_, fun q => ?_, fun lineItems v s d => ?_⟩
  · simp [Pricing.finalPaymentAmount]
  · simp [mapFinalPayment]
  · simp [Invoice.finalAmount]

/-- **C3** — Scenario A: for the single line item `{quantity 2, price 50}`
with 15 % VAT, 50 % deposit and the fixed 0.5 % service charge, the pricing
engine yields subtotal 100.00, VAT 15.00, service charge 0.50, total 115.50,
deposit 57.75 and final payment 57.75, rounding half-up to 2 decimals at each
named quantity. -/
theorem C3_scenario_A :
    Pricing.calculateItemTotal ⟨2, 50⟩ = 100 ∧
    Pricing.subtotal [⟨2, 50⟩] = 100 ∧
    Pricing.vatAmount [⟨2, 50⟩] 15 = 15 ∧
    Pricing.serviceChargeAmount [⟨2, 50⟩] = 0.50 ∧
    Pricing.total [⟨2, 50⟩] 15 = 115.50 ∧
    Pricing.depositAmount [⟨2, 50⟩] 15 50 = 57.75 ∧
    Pricing.finalPaymentAmount (Pricing.total [⟨2, 50⟩] 15)
      (Pricing.depositAmount [⟨2, 50⟩] 15 50) = 57.75 := by
  norm_num [Pricing.calculateItemTotal, Pricing.subtotal, Pricing.vatAmount,
    Pricing.serviceChargeAmount, Pricing.total, Pricing.depositAmount,
    Pricing.finalPaymentAmount, SERVICE_CHARGE_PERCENTAGE, round2]

/-- The per-stage length bookkeeping behind the conversion rate: the
denominator list is the sent-in-month list followed by the three numerator
filters. -/
lemma allSentInMonth_length (qc : QuoteCollection) (month : Nat) (year : Int) :
    (allSentInMonth qc month year).length =
      (sentQuotesIn qc month year).length + totalAcceptedQuotes qc month year := by
  simp [allSentInMonth, totalAcceptedQuotes, List.length_append, Nat.add_assoc]

/-- **C4** — The quote conversion rate computed by `calculateMonthlyMetrics`
equals the spec's formula (quotes dated in the period now in Accepted,
Scheduled Work or Complete, over quotes dated in the period across Sent,
Accepted, Scheduled Work and Complete, times 100; 0 on a zero denominator),
it is 0 when the denominator is 0, and it always lies between 0 and 100. -/
theorem C4_quote_conversion (qc : QuoteCollection) (month : Nat) (year : Int) :
    quoteConversion qc month year = quoteConversionSpec qc month year ∧
    ((allSentInMonth qc month year).length = 0 → quoteConversion qc month year = 0) ∧
    0 ≤ quoteConversion qc month year ∧ quoteConversion qc month year ≤ 100 := by
  have hnum : ((qc.Accepted ++ qc.ScheduledWork ++ qc.Complete).countP
      (fun q => inMonth q.date month year)) = totalAcceptedQuotes qc month year := by
    simp [List.countP_append, List.countP_eq_length_filter, totalAcceptedQuotes]
    omega
  have hden : ((qc.Sent ++ qc.Accepted ++ qc.ScheduledWork ++ qc.Complete).countP
      (fun q => inMonth q.date month year)) = (allSentInMonth qc month year).length := by
    simp [List.countP_append, List.countP_eq_length_filter,
      allSentInMonth_length, sentQuotesIn, totalAcceptedQuotes, Nat.add_assoc]
  have hle : totalAcceptedQuotes qc month year ≤ (allSentInMonth qc month year).length := by
    rw [allSentInMonth_length]; omega
  refine ⟨?_, ?_, ?_, ?_⟩
  · unfold quoteConversion quoteConversionSpec
    rw [hnum, hden]
    rcases Nat.eq_zero_or_pos (allSentInMonth qc month year).length with h0 | hpos
    · simp [h0]
    · rw [if_pos hpos, if_neg (by omega)]
  · intro h0
    unfold quoteConversion
    rw [if_neg (by omega)]
  · unfold quoteConversion
    split
    · positivity
    · exact le_refl 0
  · unfold quoteConversion
    split
    · rename_i hpos
      have hden' : (0 : ℚ) < ((allSentInMonth qc month year).length : ℚ) := by
        exact_mod_cast hpos
      have hq : ((totalAcceptedQuotes qc month year : ℚ) /
          ((allSentInMonth qc month year).length : ℚ)) ≤ 1 := by
        rw [div_le_one hden']
        exact_mod_cast hle
      calc ((totalAcceptedQuotes qc month year : ℚ) /
            ((allSentInMonth qc month year).length : ℚ)) * 100
          ≤ 1 * 100 := by
            exact mul_le_mul_of_nonneg_right hq (by norm_num)
        _ = 100 := by norm_num
    · norm_num

/-- Witness for C4 at the empty collection, whose denominator is zero. -/
theorem C4_quote_conversion_witness : quoteConversion emptyQC 3 2025 = 0 :=
  (C4_quote_conversion emptyQC 3 2025).2.1 (by rfl)

/-- A Scheduled Work quote whose `depositAmount` field is present but equal
to `0`, with stored total 100 and stored deposit percentage 50. -/
def qxC5 : Quote :=
  { id := "q1"
    amount := some 100
    date := none
    sentDates := none
    acceptedDate := none
    depositDate := some ⟨2025, 4, 15⟩
    completedDate := none
    finalPaymentDate := none
    isPaid := false
    depositAmount := some 0
    depositPercentage := some 50
    vatPercentage := some 15
    lineItems := [] }

/-- The collection holding `qxC5` in the Scheduled Work bucket. -/
def qcC5 : QuoteCollection := ⟨[], [], [], [qxC5], []⟩

/-- **C5, counterexample** — the claim says the derived deposit amount equals
the quote's `depositAmount` field whenever that field is present; but for a
quote whose `depositAmount` is present and `0` (with stored total 100 and
deposit percentage 50), the aggregator derives `100 * 50 / 100 = 50`, not
`0`: the JS truthiness test `quote.depositAmount ? …` treats a zero field as
absent. -/
theorem C5_counterexample :
    qxC5.depositAmount = some 0 ∧
    inMonth qxC5.depositDate 4 2025 = true ∧
    depositPaymentsSW qcC5 4 2025 = [⟨qxC5, 50, 50⟩] ∧
    derivedDepositAmount qxC5 ≠ 0 := by
  refine ⟨rfl, rfl, ?_, ?_⟩ <;>
    norm_num [depositPaymentsSW, qcC5, qxC5, mapDepositPayment,
      derivedDepositAmount, jsTruthyNum, jsNumOr, inMonth, List.filter]

/-- **C5 (amended)** — For every quote in the Scheduled Work or Complete
bucket whose `depositDate` falls in the target period, the aggregator emits a
deposit payment whose derived amount equals the quote's `depositAmount` field
when that field is present **and non-zero**; otherwise (field absent or zero)
it equals `total * depositPercentage / 100` with the quote's stored values,
where an absent/zero stored total counts as 0 and an absent/zero stored
deposit percentage defaults to 50.  The combined-payments layer re-derives
the same amount. -/
theorem C5_deposit_amount (qc : QuoteCollection) (month : Nat) (year : Int)
    (q : Quote) (hq : q ∈ qc.ScheduledWork ∨ q ∈ qc.Complete)
    (hd : inMonth q.depositDate month year = true) :
    mapDepositPayment q ∈ allDepositPayments qc month year ∧
    (∀ a : ℚ, q.depositAmount = some a → a ≠ 0 → derivedDepositAmount q = a) ∧
    ((q.depositAmount = none ∨ q.depositAmount = some 0) →
      derivedDepositAmount q =
        jsNumOr q.amount 0 * jsNumOr q.depositPercentage 50 / 100) ∧
    combinedDepositAmount (mapDepositPayment q) = derivedDepositAmount q := by
  refine ⟨?_, ?_, ?_, ?_⟩
  · unfold allDepositPayments depositPaymentsSW depositPaymentsComplete
    rcases hq with h | h
    · exact List.mem_append_left _ (List.mem_map_of_mem _ (List.mem_filter.2 ⟨h, hd⟩))
    · exact List.mem_append_right _ (List.mem_map_of_mem _ (List.mem_filter.2 ⟨h, hd⟩))
  · intro a ha ha0
    simp [derivedDepositAmount, jsTruthyNum, ha, ha0]
  · intro h
    rcases h with h | h <;> simp [derivedDepositAmount, jsTruthyNum, h]
  · unfold combinedDepositAmount mapDepositPayment
    by_cases h0 : derivedDepositAmount q = 0
    · have hfall : derivedDepositAmount q =
          jsNumOr q.amount 0 * jsNumOr q.depositPercentage 50 / 100 := by
        unfold derivedDepositAmount at h0 ⊢
        rcases hda : q.depositAmount with _ | a
        · simp [jsTruthyNum, hda]
        · by_cases ha0 : a = 0
          · simp [jsTruthyNum, ha0]
          · exfalso
            simp [jsTruthyNum, hda, ha0] at h0
      have hT : jsNumOr q.amount 0 * jsNumOr q.depositPercentage 50 / 100 = 0 :=
        hfall.symm.trans h0
      simp [h0, hT]
    · simp [h0]

/-- Witness for C5 at `qxC5` inside `qcC5`. -/
theorem C5_deposit_amount_witness :
    mapDepositPayment qxC5 ∈ allDepositPayments qcC5 4 2025 ∧
    combinedDepositAmount (mapDepositPayment qxC5) = derivedDepositAmount qxC5 :=
  ⟨(C5_deposit_amount qcC5 4 2025 qxC5 (Or.inl (by simp [qcC5])) rfl).1,
   (C5_deposit_amount qcC5 4 2025 qxC5 (Or.inl (by simp [qcC5])) rfl).2.2.2⟩

/-- Replacing every quote with a given id by a quote `u` carrying that same id
leaves `find?` for that id returning `u`, as long as some element matches. -/
lemma find?_map_update (l : List Quote) (i : String) (u : Quote) (hu : u.id = i)
    (hex : ∃ x ∈ l, x.id = i) :
    (l.map (fun x => if x.id == i then u else x)).find? (fun x => x.id == i) =
      some u := by
  induction l with
  | nil => simp at hex
  | cons a as ih =>
      by_cases ha : a.id = i
      · simp [List.map_cons, ha, List.find?_cons_of_pos, hu]
      · rw [List.map_cons, if_neg (by simpa using ha),
          List.find?_cons_of_neg _ (by simpa using ha)]
        refine ih ?_
        rcases hex with ⟨x, hx, hxi⟩
        rcases List.mem_cons.1 hx with rfl | hx'
        · exact absurd hxi ha
        · exact ⟨x, hx', hxi⟩

/-- **C7** — Scenario B: sending a draft quote, then accepting it, marking
the deposit paid, marking the work complete and marking the final payment
(each with today's date) leaves it at the head of the Complete bucket with
`isPaid = true` and `date`, `sentDates`, `acceptedDate`, `depositDate`,
`completedDate` and `finalPaymentDate` all set, and its id appears in none of
the Draft, Sent, Accepted or Scheduled Work buckets. -/
theorem C7_scenario_B (qc : QuoteCollection) (dq : Quote) (hdq : dq ∈ qc.Draft)
    (amount vatP depP : ℚ) (items : List LineItem) (today : JDate) :
    (markFinalPayment
        (markWorkComplete
          (markDepositPaid
            (acceptQuote
              (sendQuoteHandler qc (mkSentQuote dq.id amount vatP depP items today)
                (some dq.id))
              dq.id today)
            dq.id today)
          dq.id today)
        dq.id today).Complete.head? =
      some
        { id := dq.id
          amount := some amount
          date := some today
          sentDates := some [some today]
          acceptedDate := some today
          depositDate := some today
          completedDate := some today
          finalPaymentDate := some today
          isPaid := true
          depositAmount := none
          depositPercentage := some depP
          vatPercentage := some vatP
          lineItems := items } ∧
    (∀ x ∈ (markFinalPayment (markWorkComplete (markDepositPaid (acceptQuote
        (sendQuoteHandler qc (mkSentQuote dq.id amount vatP depP items today)
          (some dq.id)) dq.id today) dq.id today) dq.id today) dq.id today).Draft,
      x.id ≠ dq.id) ∧
    (∀ x ∈ (markFinalPayment (markWorkComplete (markDepositPaid (acceptQuote
        (sendQuoteHandler qc (mkSentQuote dq.id amount vatP depP items today)
          (some dq.id)) dq.id today) dq.id today) dq.id today) dq.id today).Sent,
      x.id ≠ dq.id) ∧
    (∀ x ∈ (markFinalPayment (markWorkComplete (markDepositPaid (acceptQuote
        (sendQuoteHandler qc (mkSentQuote dq.id amount vatP depP items today)
          (some dq.id)) dq.id today) dq.id today) dq.id today) dq.id today).Accepted,
      x.id ≠ dq.id) ∧
    (∀ x ∈ (markFinalPayment (markWorkComplete (markDepositPaid (acceptQuote
        (sendQuoteHandler qc (mkSentQuote dq.id amount vatP depP items today)
          (some dq.id)) dq.id today) dq.id today) dq.id today) dq.id today).ScheduledWork,
      x.id ≠ dq.id) := by
  have hstep : markFinalPayment (markWorkComplete (markDepositPaid (acceptQuote
      (sendQuoteHandler qc (mkSentQuote dq.id amount vatP depP items today)
        (some dq.id)) dq.id today) dq.id today) dq.id today) dq.id today =
      { Draft := qc.Draft.filter (fun q => !(q.id == dq.id))
        Sent := qc.Sent.filter (fun q => !(q.id == dq.id))
        Accepted := qc.Accepted.filter (fun q => !(q.id == dq.id))
        ScheduledWork := qc.ScheduledWork.filter (fun q => !(q.id == dq.id))
        Complete :=
          { id := dq.id
            amount := some amount
            date := some today
            sentDates := some [some today]
            acceptedDate := some today
            depositDate := some today
            completedDate := some today
            finalPaymentDate := some today
            isPaid := true
            depositAmount := none
            depositPercentage := some depP
            vatPercentage := some vatP
            lineItems := items } ::
            qc.Complete.map (fun x =>
              if x.id == dq.id then
                { id := dq.id
                  amount := some amount
                  date := some today
                  sentDates := some [some today]
                  acceptedDate := some today
                  depositDate := some today
                  completedDate := some today
                  finalPaymentDate := some today
                  isPaid := true
                  depositAmount := none
                  depositPercentage := some depP
                  vatPercentage := some vatP
                  lineItems := items }
              else x) } := by
    simp [sendQuoteHandler, acceptQuote, markDepositPaid, markWorkComplete,
      markFinalPayment, mkSentQuote, List.find?_cons_of_pos]
  rw [hstep]
  refine ⟨rfl, ?_, ?_, ?_, ?_⟩ <;>
    · intro x hx
      have := (List.mem_filter.1 hx).2
      simpa using this

/-- A draft quote for the Scenario B witness. -/
def dqC7 : Quote :=
  ⟨"d1", some 100, none, none, none, none, none, none, false, none, some 50,
    some 15, []⟩

/-- A collection holding only that draft. -/
def qcC7 : QuoteCollection := ⟨[dqC7], [], [], [], []⟩

/-- A concrete today for the Scenario B witness. -/
def d7 : JDate := ⟨2025, 5, 1⟩

/-- The Scenario B chain run on the concrete draft. -/
def s5C7 : QuoteCollection :=
  markFinalPayment
    (markWorkComplete
      (markDepositPaid
        (acceptQuote
          (sendQuoteHandler qcC7 (mkSentQuote dqC7.id 100 15 50 [] d7)
            (some dqC7.id))
          dqC7.id d7)
        dqC7.id d7)
      dqC7.id d7)
    dqC7.id d7

/-- Witness for C7 on the concrete one-draft collection. -/
theorem C7_scenario_B_witness :
    s5C7.Complete.head? =
      some
        { id := dqC7.id
          amount := some 100
          date := some d7
          sentDates := some [some d7]
          acceptedDate := some d7
          depositDate := some d7
          completedDate := some d7
          finalPaymentDate := some d7
          isPaid := true
          depositAmount := none
          depositPercentage := some 50
          vatPercentage := some 15
          lineItems := [] } :=
  (C7_scenario_B qcC7 dqC7 (by simp [qcC7]) 100 15 50 [] d7).1

/-- **C8** — Resending a Sent quote twice on the same day appends two equal
entries of today's date to its `sentDates` array, leaves its `date` field
untouched, keeps it in the Sent bucket (still found there under its id), and
touches no other bucket. -/
theorem C8_resend_twice (qc : QuoteCollection) (i : String) (today : JDate)
    (q : Quote) (sd : List (Option JDate))
    (hfind : qc.Sent.find? (fun x => x.id == i) = some q)
    (hsd : q.sentDates = some sd) :
    ({ q with sentDates := some (sd ++ [some today, some today]) } : Quote) ∈
        (resendQuote (resendQuote qc i today) i today).Sent ∧
    (resendQuote (resendQuote qc i today) i today).Sent.find?
        (fun x => x.id == i) =
      some { q with sentDates := some (sd ++ [some today, some today]) } ∧
    ({ q with sentDates := some (sd ++ [some today, some today]) } : Quote).date =
      q.date ∧
    (resendQuote (resendQuote qc i today) i today).Draft = qc.Draft ∧
    (resendQuote (resendQuote qc i today) i today).Accepted = qc.Accepted ∧
    (resendQuote (resendQuote qc i today) i today).ScheduledWork =
      qc.ScheduledWork ∧
    (resendQuote (resendQuote qc i today) i today).Complete = qc.Complete := by
  have hqi : q.id = i := by simpa using List.find?_some hfind
  have hqmem : q ∈ qc.Sent := List.mem_of_find?_eq_some hfind
  have h1 : resendQuote qc i today =
      { qc with Sent := qc.Sent.map (fun x =>
          if x.id == i then { q with sentDates := some (sd ++ [some today]) }
          else x) } := by
    unfold resendQuote
    rw [hfind]
    simp [hsd]
  have hfind2 : (qc.Sent.map (fun x =>
      if x.id == i then { q with sentDates := some (sd ++ [some today]) }
      else x)).find? (fun x => x.id == i) =
      some { q with sentDates := some (sd ++ [some today]) } :=
    find?_map_update _ _ _ hqi ⟨q, hqmem, hqi⟩
  have h2 : resendQuote (resendQuote qc i today) i today =
      { qc with Sent := (qc.Sent.map (fun x =>
          if x.id == i then { q with sentDates := some (sd ++ [some today]) }
          else x)).map (fun x =>
          if x.id == i then
            { q with sentDates := some (sd ++ [some today, some today]) }
          else x) } := by
    rw [h1]
    unfold resendQuote
    rw [hfind2]
    simp
  refine ⟨?_, ?_, rfl, by rw [h2], by rw [h2], by rw [h2], by rw [h2]⟩
  · rw [h2]
    refine List.mem_map.2 ⟨(if q.id == i then
        { q with sentDates := some (sd ++ [some today]) } else q), ?_, ?_⟩
    · exact List.mem_map.2 ⟨q, hqmem, rfl⟩
    · simp [hqi]
  · rw [h2]
    exact find?_map_update _ _ _ hqi
      ⟨{ q with sentDates := some (sd ++ [some today]) },
        List.mem_map.2 ⟨q, hqmem, by simp [hqi]⟩, hqi⟩

/-- A Sent quote for the C8 witness. -/
def sqC8 : Quote :=
  ⟨"s1", some 100, some ⟨2025, 4, 2⟩, some [some ⟨2025, 4, 2⟩], none, none,
    none, none, false, none, some 50, some 15, []⟩

/-- A collection holding only that Sent quote. -/
def qcC8 : QuoteCollection := ⟨[], [sqC8], [], [], []⟩

/-- Witness for C8 on the concrete one-quote Sent bucket. -/
theorem C8_resend_twice_witness :
    ({ sqC8 with
        sentDates := some [some ⟨2025, 4, 2⟩, some ⟨2025, 4, 9⟩, some ⟨2025, 4, 9⟩] } : Quote) ∈
        (resendQuote (resendQuote qcC8 "s1" ⟨2025, 4, 9⟩) "s1" ⟨2025, 4, 9⟩).Sent ∧
    ({ sqC8 with
        sentDates := some [some ⟨2025, 4, 2⟩, some ⟨2025, 4, 9⟩, some ⟨2025, 4, 9⟩] } : Quote).date =
      sqC8.date :=
  ⟨(C8_resend_twice qcC8 "s1" ⟨2025, 4, 9⟩ sqC8 [some ⟨2025, 4, 2⟩] rfl rfl).1,
   (C8_resend_twice qcC8 "s1" ⟨2025, 4, 9⟩ sqC8 [some ⟨2025, 4, 2⟩] rfl rfl).2.2.1⟩

/-- **C9, counterexample** — the claim says a transition whose quote id is
missing from the expected source bucket reports "not found" to the caller;
but the handlers' not-found path is completely silent: on the empty
collection, `markDepositPaid` leaves the state unchanged and emits no alert
at all (`markDepositPaidAlert = none`), rather than a "not found" message. -/
theorem C9_counterexample :
    emptyQC.Accepted.find? (fun x => x.id == "q1") = none ∧
    markDepositPaid emptyQC "q1" ⟨2025, 4, 15⟩ = emptyQC ∧
    markDepositPaidAlert emptyQC "q1" = none :=
  ⟨rfl, rfl, rfl⟩

/-- **C9 (amended)** — every transition invoked with a quote id absent from
its expected source bucket is a silent no-op: the collection is left entirely
unchanged and no message is emitted (the handlers have no else-branch), and
the operation is total, never a fatal error. -/
theorem C9_not_found_noop (qc : QuoteCollection) (i : String) (d : JDate) :
    (qc.Sent.find? (fun x => x.id == i) = none →
      resendQuote qc i d = qc ∧ resendQuoteAlert qc i = none) ∧
    (qc.Sent.find? (fun x => x.id == i) = none →
      acceptQuote qc i d = qc ∧ acceptQuoteAlert qc i = none) ∧
    (qc.Accepted.find? (fun x => x.id == i) = none →
      markDepositPaid qc i d = qc ∧ markDepositPaidAlert qc i = none) ∧
    (qc.ScheduledWork.find? (fun x => x.id == i) = none →
      markWorkComplete qc i d = qc ∧ markWorkCompleteAlert qc i = none) ∧
    (qc.Complete.find? (fun x => x.id == i) = none →
      markFinalPayment qc i d = qc ∧ markFinalPaymentAlert qc i = none) := by
  refine ⟨fun h => ⟨?_, ?_⟩, fun h => ⟨?_, ?_⟩, fun h => ⟨?_, ?_⟩,
    fun h => ⟨?_, ?_⟩, fun h => ⟨?_, ?_⟩⟩
  · unfold resendQuote; rw [h]
  · unfold resendQuoteAlert; rw [h]; rfl
  · unfold acceptQuote; rw [h]
  · unfold acceptQuoteAlert; rw [h]; rfl
  · unfold markDepositPaid; rw [h]
  · unfold markDepositPaidAlert; rw [h]; rfl
  · unfold markWorkComplete; rw [h]
  · unfold markWorkCompleteAlert; rw [h]; rfl
  · unfold markFinalPayment; rw [h]
  · unfold markFinalPaymentAlert; rw [h]; rfl

/-- Witness for C9 on the empty collection. -/
theorem C9_not_found_noop_witness :
    (resendQuote emptyQC "q9" ⟨2025, 4, 15⟩ = emptyQC ∧
      resendQuoteAlert emptyQC "q9" = none) ∧
    (markFinalPayment emptyQC "q9" ⟨2025, 4, 15⟩ = emptyQC ∧
      markFinalPaymentAlert emptyQC "q9" = none) :=
  ⟨(C9_not_found_noop emptyQC "q9" ⟨2025, 4, 15⟩).1 rfl,
   (C9_not_found_noop emptyQC "q9" ⟨2025, 4, 15⟩).2.2.2.2 rfl⟩

/-- **C10** — `markFinalPayment` itself does not check `isPaid`: for every
quote found in the Complete bucket (in particular one already paid), it
overwrites `finalPaymentDate` with today and sets `isPaid := true`, keeping
the quote in Complete and leaving every other bucket untouched; the
`isPaid = false` guard exists only in the quote-card wiring
(`onFinalPaymentEnabled`), which offers the action exactly on the Complete
tab for unpaid quotes. -/
theorem C10_markFinalPayment_no_guard (qc : QuoteCollection) (i : String)
    (d : JDate) (q : Quote)
    (hfind : qc.Complete.find? (fun x => x.id == i) = some q) :
    ({ q with finalPaymentDate := some d, isPaid := true } : Quote) ∈
        (markFinalPayment qc i d).Complete ∧
    (markFinalPayment qc i d).Complete.find? (fun x => x.id == i) =
      some { q with finalPaymentDate := some d, isPaid := true } ∧
    (markFinalPayment qc i d).Complete.length = qc.Complete.length ∧
    (markFinalPayment qc i d).Draft = qc.Draft ∧
    (markFinalPayment qc i d).Sent = qc.Sent ∧
    (markFinalPayment qc i d).Accepted = qc.Accepted ∧
    (markFinalPayment qc i d).ScheduledWork = qc.ScheduledWork ∧
    (∀ tab, onFinalPaymentEnabled tab q = (tab == "Complete" && !q.isPaid)) := by
  have hqi : q.id = i := by simpa using List.find?_some hfind
  have hqmem : q ∈ qc.Complete := List.mem_of_find?_eq_some hfind
  have hm : markFinalPayment qc i d =
      { qc with Complete := qc.Complete.map (fun x =>
          if x.id == i then { q with finalPaymentDate := some d, isPaid := true }
          else x) } := by
    unfold markFinalPayment
    rw [hfind]
  refine ⟨?_, ?_, by rw [hm]; exact List.length_map _ _, by rw [hm], by rw [hm],
    by rw [hm], by rw [hm], fun tab => rfl⟩
  · rw [hm]
    exact List.mem_map.2 ⟨q, hqmem, by simp [hqi]⟩
  · rw [hm]
    exact find?_map_update _ _ _ hqi ⟨q, hqmem, hqi⟩

/-- A Complete quote that is already paid, with an earlier recorded final
payment date. -/
def qC10 : Quote :=
  ⟨"c1", some 100, some ⟨2025, 3, 1⟩, some [some ⟨2025, 3, 1⟩], some ⟨2025, 3, 2⟩,
    some ⟨2025, 3, 3⟩, some ⟨2025, 3, 4⟩, some ⟨2025, 3, 5⟩, true, none, some 50,
    some 15, []⟩

/-- A collection holding only that Complete quote. -/
def qcC10 : QuoteCollection := ⟨[], [], [], [], [qC10]⟩

/-- Witness for C10: the already-paid quote still gets its
`finalPaymentDate` replaced. -/
theorem C10_markFinalPayment_no_guard_witness :
    ({ qC10 with finalPaymentDate := some ⟨2025, 4, 20⟩, isPaid := true } : Quote) ∈
      (markFinalPayment qcC10 "c1" ⟨2025, 4, 20⟩).Complete :=
  (C10_markFinalPayment_no_guard qcC10 "c1" ⟨2025, 4, 20⟩ qC10 rfl).1

/-! ## The stage invariant (C1) -/

/-- Filtering quotes by id commutes with projecting the ids. -/
lemma filter_map_id (l : List Quote) (i : String) :
    (l.filter (fun x => !(x.id == i))).map Quote.id =
      (l.map Quote.id).filter (fun s => !(s == i)) := by
  induction l with
  | nil => rfl
  | cons b bs ih =>
      by_cases hb : b.id = i <;> simp [List.filter_cons, hb, ih]

/-- Replacing the quotes with a given id by a quote carrying that same id
does not change the id list. -/
lemma update_map_id (l : List Quote) (i : String) (u : Quote) (hu : u.id = i) :
    (l.map (fun x => if x.id == i then u else x)).map Quote.id =
      l.map Quote.id := by
  induction l with
  | nil => rfl
  | cons b bs ih =>
      simp only [List.map_cons]
      rw [ih]
      by_cases hb : b.id = i
      · simp [hb, hu]
      · simp [hb]

/-- Moving one occurrence of `i` out of a duplicate-free segment to the head
of the rest is a permutation. -/
lemma perm_move (src rest : List String) (i : String) (hnd : src.Nodup)
    (hi : i ∈ src) :
    List.Perm (src.filter (fun s => !(s == i)) ++ (i :: rest)) (src ++ rest) := by
  have he : src.filter (fun s => !(s == i)) = src.erase i :=
    (hnd.erase_eq_filter i).symm
  have h1 : List.Perm src (i :: src.filter (fun s => !(s == i))) := by
    rw [he]; exact List.perm_cons_erase hi
  refine List.Perm.trans List.perm_middle ?_
  have h2 : List.Perm ((i :: src.filter (fun s => !(s == i))) ++ rest)
      (src ++ rest) := h1.symm.append_right rest
  simpa using h2

/-- The per-bucket id lists of a collection satisfying the stage invariant
are each duplicate-free. -/
lemma nodup_buckets (qc : QuoteCollection) (h : StageInvariant qc) :
    (qc.Draft.map Quote.id).Nodup ∧ (qc.Sent.map Quote.id).Nodup ∧
    (qc.Accepted.map Quote.id).Nodup ∧ (qc.ScheduledWork.map Quote.id).Nodup ∧
    (qc.Complete.map Quote.id).Nodup := by
  unfold StageInvariant QuoteCollection.allIds QuoteCollection.allQuotes at h
  simp only [List.map_append, List.nodup_append, List.append_assoc] at h
  tauto

/-- `acceptQuote` on a found id permutes the id list (a move, not a copy). -/
lemma accept_perm (qc : QuoteCollection) (i : String) (d : JDate) (q : Quote)
    (hfind : qc.Sent.find? (fun x => x.id == i) = some q)
    (h : StageInvariant qc) :
    List.Perm (acceptQuote qc i d).allIds qc.allIds := by
  have hqi : q.id = i := by simpa using List.find?_some hfind
  have hmem : i ∈ qc.Sent.map Quote.id :=
    List.mem_map.2 ⟨q, List.mem_of_find?_eq_some hfind, hqi⟩
  have hnd : (qc.Sent.map Quote.id).Nodup := (nodup_buckets qc h).2.1
  unfold acceptQuote
  rw [hfind]
  unfold QuoteCollection.allIds QuoteCollection.allQuotes
  simp only [List.map_append, List.map_cons, List.append_assoc, List.cons_append]
  have hid : ({ q with acceptedDate := some d } : Quote).id = i := hqi
  rw [filter_map_id, hid]
  exact List.Perm.append_left _ (perm_move _ _ i hnd hmem)

/-- `markDepositPaid` on a found id permutes the id list. -/
lemma deposit_perm (qc : QuoteCollection) (i : String) (d : JDate) (q : Quote)
    (hfind : qc.Accepted.find? (fun x => x.id == i) = some q)
    (h : StageInvariant qc) :
    List.Perm (markDepositPaid qc i d).allIds qc.allIds := by
  have hqi : q.id = i := by simpa using List.find?_some hfind
  have hmem : i ∈ qc.Accepted.map Quote.id :=
    List.mem_map.2 ⟨q, List.mem_of_find?_eq_some hfind, hqi⟩
  have hnd : (qc.Accepted.map Quote.id).Nodup := (nodup_buckets qc h).2.2.1
  unfold markDepositPaid
  rw [hfind]
  unfold QuoteCollection.allIds QuoteCollection.allQuotes
  simp only [List.map_append, List.map_cons, List.append_assoc, List.cons_append]
  have hid : ({ q with depositDate := some d } : Quote).id = i := hqi
  rw [filter_map_id, hid]
  exact List.Perm.append_left _
    (List.Perm.append_left _ (perm_move _ _ i hnd hmem))

/-- `markWorkComplete` on a found id permutes the id list. -/
lemma complete_perm (qc : QuoteCollection) (i : String) (d : JDate) (q : Quote)
    (hfind : qc.ScheduledWork.find? (fun x => x.id == i) = some q)
    (h : StageInvariant qc) :
    List.Perm (markWorkComplete qc i d).allIds qc.allIds := by
  have hqi : q.id = i := by simpa using List.find?_some hfind
  have hmem : i ∈ qc.ScheduledWork.map Quote.id :=
    List.mem_map.2 ⟨q, List.mem_of_find?_eq_some hfind, hqi⟩
  have hnd : (qc.ScheduledWork.map Quote.id).Nodup := (nodup_buckets qc h).2.2.2.1
  unfold markWorkComplete
  rw [hfind]
  unfold QuoteCollection.allIds QuoteCollection.allQuotes
  simp only [List.map_append, List.map_cons, List.append_assoc, List.cons_append]
  have hid : ({ q with completedDate := some d, isPaid := false } : Quote).id = i :=
    hqi
  rw [filter_map_id, hid]
  exact List.Perm.append_left _ (List.Perm.append_left _
    (List.Perm.append_left _ (perm_move _ _ i hnd hmem)))

/-- `sendQuoteHandler` preserves the stage invariant on well-formed input. -/
lemma sinv_send (qc : QuoteCollection) (sq : Quote) (fid : Option String)
    (h : StageInvariant qc) (hwf : wfOp qc (.send sq fid) = true) :
    StageInvariant (sendQuoteHandler qc sq fid) := by
  unfold wfOp at hwf
  simp only [Bool.or_eq_true, Bool.and_eq_true, decide_eq_true_eq] at hwf
  rcases hwf with hfresh | ⟨hfid, hmem⟩
  · unfold StageInvariant QuoteCollection.allIds QuoteCollection.allQuotes at h ⊢
    cases fid with
    | none =>
        unfold sendQuoteHandler
        simp only [List.map_append, List.map_cons, List.append_assoc,
          List.cons_append]
        refine (List.perm_middle.nodup_iff).2 ?_
        refine List.nodup_cons.2 ⟨?_, by simpa [List.append_assoc] using h⟩
        simpa [QuoteCollection.allIds, QuoteCollection.allQuotes,
          List.append_assoc] using hfresh
    | some f =>
        unfold sendQuoteHandler
        simp only [List.map_append, List.map_cons, List.append_assoc,
          List.cons_append]
        rw [filter_map_id]
        refine (List.perm_middle.nodup_iff).2 ?_
        refine List.nodup_cons.2 ⟨?_, ?_⟩
        · intro hin
          apply hfresh
          unfold QuoteCollection.allIds QuoteCollection.allQuotes
          have hsub : List.Sublist
              ((qc.Draft.map Quote.id).filter (fun s => !(s == f)) ++
                (qc.Sent.map Quote.id ++ (qc.Accepted.map Quote.id ++
                  (qc.ScheduledWork.map Quote.id ++ qc.Complete.map Quote.id))))
              (qc.Draft.map Quote.id ++
                (qc.Sent.map Quote.id ++ (qc.Accepted.map Quote.id ++
                  (qc.ScheduledWork.map Quote.id ++ qc.Complete.map Quote.id)))) :=
            List.Sublist.append (List.filter_sublist _) (List.Sublist.refl _)
          simpa [List.map_append, List.append_assoc] using hsub.subset hin
        · have hsub : List.Sublist
              ((qc.Draft.map Quote.id).filter (fun s => !(s == f)) ++
                (qc.Sent.map Quote.id ++ (qc.Accepted.map Quote.id ++
                  (qc.ScheduledWork.map Quote.id ++ qc.Complete.map Quote.id))))
              (qc.Draft.map Quote.id ++
                (qc.Sent.map Quote.id ++ (qc.Accepted.map Quote.id ++
                  (qc.ScheduledWork.map Quote.id ++ qc.Complete.map Quote.id)))) :=
            List.Sublist.append (List.filter_sublist _) (List.Sublist.refl _)
          exact List.Nodup.sublist hsub (by simpa [List.append_assoc] using h)
  · rcases hfid with rfl
    unfold sendQuoteHandler
    unfold StageInvariant QuoteCollection.allIds QuoteCollection.allQuotes at h ⊢
    simp only [List.map_append, List.map_cons, List.append_assoc,
      List.cons_append]
    rw [filter_map_id]
    have hnd : (qc.Draft.map Quote.id).Nodup := by
      refine List.Nodup.sublist ?_ (by simpa [List.append_assoc] using h)
      exact (List.sublist_append_left _ _)
    refine ((perm_move (qc.Draft.map Quote.id)
      (qc.Sent.map Quote.id ++ (qc.Accepted.map Quote.id ++
        (qc.ScheduledWork.map Quote.id ++ qc.Complete.map Quote.id)))
      sq.id hnd hmem).nodup_iff).2 ?_
    simpa [List.append_assoc] using h

/-- `resendQuote` leaves the id list unchanged. -/
lemma sinv_resend (qc : QuoteCollection) (i : String) (d : JDate)
    (h : StageInvariant qc) : StageInvariant (resendQuote qc i d) := by
  rcases hfind : qc.Sent.find? (fun x => x.id == i) with _ | q
  · unfold resendQuote; rw [hfind]; exact h
  · have hqi : q.id = i := by simpa using List.find?_some hfind
    unfold resendQuote
    rw [hfind]
    unfold StageInvariant QuoteCollection.allIds QuoteCollection.allQuotes at h ⊢
    simp only [List.map_append] at h ⊢
    have hid : ({ q with
        sentDates := some (q.sentDates.getD [q.date] ++ [some d]) } : Quote).id = i :=
      hqi
    rw [update_map_id _ _ _ hid]
    exact h

/-- `markFinalPayment` leaves the id list unchanged. -/
lemma sinv_markFinal (qc : QuoteCollection) (i : String) (d : JDate)
    (h : StageInvariant qc) : StageInvariant (markFinalPayment qc i d) := by
  rcases hfind : qc.Complete.find? (fun x => x.id == i) with _ | q
  · unfold markFinalPayment; rw [hfind]; exact h
  · have hqi : q.id = i := by simpa using List.find?_some hfind
    unfold markFinalPayment
    rw [hfind]
    unfold StageInvariant QuoteCollection.allIds QuoteCollection.allQuotes at h ⊢
    simp only [List.map_append] at h ⊢
    have hid : ({ q with finalPaymentDate := some d, isPaid := true } : Quote).id = i :=
      hqi
    rw [update_map_id _ _ _ hid]
    exact h

/-- `deleteQuote` only removes ids. -/
lemma sinv_delete (qc : QuoteCollection) (i : String) (h : StageInvariant qc) :
    StageInvariant (deleteQuote qc i) := by
  unfold deleteQuote
  unfold StageInvariant QuoteCollection.allIds QuoteCollection.allQuotes at h ⊢
  simp only [List.map_append, List.append_assoc] at h ⊢
  rw [filter_map_id]
  exact List.Nodup.sublist
    (List.Sublist.append (List.filter_sublist _) (List.Sublist.refl _)) h

/-- Every well-formed transition preserves the stage invariant. -/
lemma sinv_applyOp (qc : QuoteCollection) (op : Op) (h : StageInvariant qc)
    (hwf : wfOp qc op = true) : StageInvariant (applyOp qc op) := by
  cases op with
  | send sq fid => exact sinv_send qc sq fid h hwf
  | resend i d => exact sinv_resend qc i d h
  | accept i d =>
      rcases hfind : qc.Sent.find? (fun x => x.id == i) with _ | q
      · show StageInvariant (acceptQuote qc i d)
        unfold acceptQuote; rw [hfind]; exact h
      · exact ((accept_perm qc i d q hfind h).nodup_iff).2 h
  | markDeposit i d =>
      rcases hfind : qc.Accepted.find? (fun x => x.id == i) with _ | q
      · show StageInvariant (markDepositPaid qc i d)
        unfold markDepositPaid; rw [hfind]; exact h
      · exact ((deposit_perm qc i d q hfind h).nodup_iff).2 h
  | markComplete i d =>
      rcases hfind : qc.ScheduledWork.find? (fun x => x.id == i) with _ | q
      · show StageInvariant (markWorkComplete qc i d)
        unfold markWorkComplete; rw [hfind]; exact h
      · exact ((complete_perm qc i d q hfind h).nodup_iff).2 h
  | markFinal i d => exact sinv_markFinal qc i d h
  | deleteDraft i => exact sinv_delete qc i h

/-- Every well-formed transition sequence preserves the stage invariant. -/
lemma sinv_applyOps (ops : List Op) : ∀ qc : QuoteCollection,
    StageInvariant qc → wfOps qc ops = true → StageInvariant (applyOps qc ops) := by
  induction ops with
  | nil => intro qc h _; exact h
  | cons op rest ih =>
      intro qc h hwf
      rw [wfOps, Bool.and_eq_true] at hwf
      exact ih _ (sinv_applyOp qc op h hwf.1) hwf.2

/-- A prefix of a well-formed transition sequence is well-formed. -/
lemma wfOps_of_append (l₁ l₂ : List Op) : ∀ qc : QuoteCollection,
    wfOps qc (l₁ ++ l₂) = true → wfOps qc l₁ = true := by
  induction l₁ with
  | nil => intro qc _; rfl
  | cons op rest ih =>
      intro qc h
      rw [List.cons_append, wfOps, Bool.and_eq_true] at h
      rw [wfOps, Bool.and_eq_true]
      exact ⟨h.1, ih _ h.2⟩

/-- **C1** — Starting from a collection in which every quote id occupies
exactly one stage bucket, every well-formed sequence of transitions keeps it
that way at every step (every prefix of the sequence), and each moving
transition is a genuine move in one atomic state update: the found quote is
inserted at the head of the destination bucket, its id is gone from the
source bucket, and the multiset of ids of the whole collection is unchanged
(never copied).  `send` prepends the sent quote to Sent and removes the
originating draft id from Draft. -/
theorem C1_stage_invariant (qc : QuoteCollection) (h : StageInvariant qc) :
    (∀ pre suf : List Op, wfOps qc (pre ++ suf) = true →
      StageInvariant (applyOps qc pre)) ∧
    (∀ (i : String) (d : JDate) (q : Quote),
      qc.Sent.find? (fun x => x.id == i) = some q →
        (acceptQuote qc i d).Accepted.head? =
          some { q with acceptedDate := some d } ∧
        (∀ x ∈ (acceptQuote qc i d).Sent, x.id ≠ i) ∧
        ((acceptQuote qc i d).allIds : Multiset String) = (qc.allIds : Multiset String)) ∧
    (∀ (i : String) (d : JDate) (q : Quote),
      qc.Accepted.find? (fun x => x.id == i) = some q →
        (markDepositPaid qc i d).ScheduledWork.head? =
          some { q with depositDate := some d } ∧
        (∀ x ∈ (markDepositPaid qc i d).Accepted, x.id ≠ i) ∧
        ((markDepositPaid qc i d).allIds : Multiset String) = (qc.allIds : Multiset String)) ∧
    (∀ (i : String) (d : JDate) (q : Quote),
      qc.ScheduledWork.find? (fun x => x.id == i) = some q →
        (markWorkComplete qc i d).Complete.head? =
          some { q with completedDate := some d, isPaid := false } ∧
        (∀ x ∈ (markWorkComplete qc i d).ScheduledWork, x.id ≠ i) ∧
        ((markWorkComplete qc i d).allIds : Multiset String) = (qc.allIds : Multiset String)) ∧
    (∀ (sq : Quote) (fid : String),
      (sendQuoteHandler qc sq (some fid)).Sent.head? = some sq ∧
      ∀ x ∈ (sendQuoteHandler qc sq (some fid)).Draft, x.id ≠ fid) := by
  refine ⟨?_, ?_, ?_, ?_, ?_⟩
  · intro pre suf hwf
    exact sinv_applyOps pre qc h (wfOps_of_append pre suf qc hwf)
  · intro i d q hfind
    have hstep : acceptQuote qc i d =
        { qc with
            Accepted := { q with acceptedDate := some d } :: qc.Accepted
            Sent := qc.Sent.filter (fun x => !(x.id == i)) } := by
      unfold acceptQuote; rw [hfind]
    refine ⟨by rw [hstep]; rfl, ?_, Multiset.coe_eq_coe.2 (accept_perm qc i d q hfind h)⟩
    intro x hx
    rw [hstep] at hx
    simpa using (List.mem_filter.1 hx).2
  · intro i d q hfind
    have hstep : markDepositPaid qc i d =
        { qc with
            ScheduledWork := { q with depositDate := some d } :: qc.ScheduledWork
            Accepted := qc.Accepted.filter (fun x => !(x.id == i)) } := by
      unfold markDepositPaid; rw [hfind]
    refine ⟨by rw [hstep]; rfl, ?_, Multiset.coe_eq_coe.2 (deposit_perm qc i d q hfind h)⟩
    intro x hx
    rw [hstep] at hx
    simpa using (List.mem_filter.1 hx).2
  · intro i d q hfind
    have hstep : markWorkComplete qc i d =
        { qc with
            Complete := { q with completedDate := some d, isPaid := false } :: qc.Complete
            ScheduledWork := qc.ScheduledWork.filter (fun x => !(x.id == i)) } := by
      unfold markWorkComplete; rw [hfind]
    refine ⟨by rw [hstep]; rfl, ?_, Multiset.coe_eq_coe.2 (complete_perm qc i d q hfind h)⟩
    intro x hx
    rw [hstep] at hx
    simpa using (List.mem_filter.1 hx).2
  · intro sq fid
    refine ⟨rfl, ?_⟩
    intro x hx
    simpa using (List.mem_filter.1 hx).2

/-- Witness for C1: the one-quote Sent collection stays invariant through an
accept followed by a deposit-paid transition. -/
theorem C1_stage_invariant_witness :
    StageInvariant (applyOps qcC8
      [Op.accept "s1" ⟨2025, 4, 20⟩, Op.markDeposit "s1" ⟨2025, 4, 21⟩]) :=
  (C1_stage_invariant qcC8 (by decide)).1
    [Op.accept "s1" ⟨2025, 4, 20⟩, Op.markDeposit "s1" ⟨2025, 4, 21⟩] []
    (by decide)

/-! ## The invitation matcher (C6) -/

/-- Basic-latin lower-casing is idempotent. -/
lemma charToLower_idem (c : Char) : c.toLower.toLower = c.toLower := by
  have key : ∀ m : Nat, m.isValidChar → (Char.ofNat m).toNat = m := by
    intro m hv
    simp [Char.ofNat, dif_pos hv, Char.ofNatAux, Char.toNat, UInt32.toNat,
      BitVec.toNat_ofNatLt]
  unfold Char.toLower
  by_cases h : c.toNat ≥ 65 ∧ c.toNat ≤ 90
  · rw [if_pos h]
    have hv : Nat.isValidChar (c.toNat + 32) := Or.inl (by omega)
    rw [if_neg (by rw [key _ hv]; omega)]
  · rw [if_neg h, if_neg h]

/-- String lower-casing is idempotent. -/
lemma strLower_idem (s : String) : strLower (strLower s) = strLower s := by
  have hf : Char.toLower ∘ Char.toLower = Char.toLower := funext charToLower_idem
  simp [strLower, List.map_map, hf]

/-- The head of a filtered list is the first element satisfying the filter. -/
lemma head?_filter {α : Type} (p : α → Bool) (l : List α) :
    (l.filter p).head? = l.find? p := by
  induction l with
  | nil => rfl
  | cons a as ih =>
      by_cases ha : p a
      · simp [List.filter_cons, ha, List.find?_cons_of_pos]
      · rw [List.filter_cons, if_neg (by simpa using ha),
          List.find?_cons_of_neg _ (by simpa using ha)]
        exact ih

/-- A client-side exact match is an exact-tier match once the queried string
is lower-case stable. -/
lemma clientExact_imp (e : String) (he : strLower e = e) (inv : Invitation)
    (h : clientExact e inv = true) : tier1 e inv = true := by
  unfold clientExact jsTruthyStr at h
  unfold tier1
  rcases hs : inv.email with _ | s
  · rw [hs] at h; simp at h
  · rw [hs] at h
    simp only [Bool.and_eq_true, beq_iff_eq, Option.getD_some] at h
    simp [h.2, he]

/-- A client-side partial match is a substring-tier match once the queried
string is lower-case stable. -/
lemma clientPartial_imp (e : String) (he : strLower e = e) (inv : Invitation)
    (h : clientPartialMatch e inv = true) : tier2 e inv = true := by
  unfold clientPartialMatch jsTruthyStr at h
  unfold tier2
  rcases hs : inv.email with _ | s
  · rw [hs] at h; simp at h
  · rw [hs] at h
    simp only [Bool.and_eq_true, Bool.or_eq_true, Option.getD_some] at h
    rcases h.2 with h2 | h2 <;> simp [he, h2]

/-- An `ILIKE` match is a substring-tier match. -/
lemma ilike_imp (e : String) (inv : Invitation)
    (h : (match inv.email with
          | some s => strContains (strLower s) (strLower e)
          | none => false) = true) : tier2 e inv = true := by
  unfold tier2
  rcases hs : inv.email with _ | s
  · rw [hs] at h; simp at h
  · rw [hs] at h
    have h' : strContains (strLower s) (strLower e) = true := h
    simp [h']

/-- **C6, counterexample** — the claim says the matcher applies the three
tiers in order, stopping at the first tier that yields a result.  But
`find_team_invitation` is a `UNION` of the tiers with no `ORDER BY`, so the
database may return a substring-tier row before an exact-tier row, and
`verifyEmail` takes `rpcData[0]`.  Concretely: the store holds an exact match
(`ann@x.com`, business b1) and a substring-only match (`joann@x.common`,
business b2); the row list `[joann…, ann…]` is a legal union result
(`IsUnionResult` holds), and on it `verifyEmail` resolves to b2 — a
substring-tier match — although the exact-tier match b1 is present, while the
spec's ordered tiers resolve to b1. -/
theorem C6_counterexample :
    IsUnionResult [⟨some "ann@x.com", "b1"⟩, ⟨some "joann@x.common", "b2"⟩]
      (strLower (strTrim "ann@x.com"))
      [⟨some "joann@x.common", "b2"⟩, ⟨some "ann@x.com", "b1"⟩] ∧
    verifyEmail [⟨some "ann@x.com", "b1"⟩, ⟨some "joann@x.common", "b2"⟩]
      [⟨some "joann@x.common", "b2"⟩, ⟨some "ann@x.com", "b1"⟩] "ann@x.com" =
      some "b2" ∧
    tieredMatch [⟨some "ann@x.com", "b1"⟩, ⟨some "joann@x.common", "b2"⟩]
      "ann@x.com" = some "b1" ∧
    tier1 (strLower (strTrim "ann@x.com")) ⟨some "ann@x.com", "b1"⟩ = true ∧
    tier1 (strLower (strTrim "ann@x.com")) ⟨some "joann@x.common", "b2"⟩ = false ∧
    tier2 (strLower (strTrim "ann@x.com")) ⟨some "joann@x.common", "b2"⟩ = true := by
  decide

/-- **C6 (amended)** — For every (non-blank) queried e-mail, every invitation
store and every row list the unordered `find_team_invitation` union may
legally return, `verifyEmail` resolves to at most one business id; it reports
"no invitation found" (resolving to nothing, leaving state unchanged) exactly
when no stored invitation matches any of the three tiers — exact
case-insensitive match on the normalized (trimmed, lower-cased) e-mail,
substring containment in either direction, case-insensitive local-part
match — and any id it does resolve belongs to a stored invitation matching at
least one tier.  Which matching invitation wins is unspecified, because the
SQL `UNION` imposes no row order. -/
theorem C6_matcher_amended (store rpc : List Invitation) (email : String)
    (hne : (strTrim email).isEmpty = false)
    (hrpc : IsUnionResult store (strLower (strTrim email)) rpc) :
    (verifyEmail store rpc email = none ↔
      ∀ inv ∈ store, tier1 (strLower (strTrim email)) inv = false ∧
        tier2 (strLower (strTrim email)) inv = false ∧
        tier3 (strLower (strTrim email)) inv = false) ∧
    (∀ b : String, verifyEmail store rpc email = some b →
      ∃ inv ∈ store, inv.business_id = b ∧
        (tier1 (strLower (strTrim email)) inv = true ∨
          tier2 (strLower (strTrim email)) inv = true ∨
          tier3 (strLower (strTrim email)) inv = true)) := by
  have he : strLower (strLower (strTrim email)) = strLower (strTrim email) :=
    strLower_idem _
  obtain ⟨hnd, hsub, hempty, hlen⟩ := hrpc
  cases rpc with
  | nil =>
      have hfil : store.filter (anyTier (strLower (strTrim email))) = [] :=
        hempty.1 rfl
      have htiers : ∀ inv ∈ store,
          tier1 (strLower (strTrim email)) inv = false ∧
          tier2 (strLower (strTrim email)) inv = false ∧
          tier3 (strLower (strTrim email)) inv = false := by
        intro inv hinv
        have hany : ¬ anyTier (strLower (strTrim email)) inv = true := by
          intro hc
          have hm : inv ∈ store.filter (anyTier (strLower (strTrim email))) :=
            List.mem_filter.2 ⟨hinv, hc⟩
          rw [hfil] at hm
          simp at hm
        simp only [anyTier, Bool.or_eq_true, not_or] at hany
        exact ⟨by simpa using hany.1.1, by simpa using hany.1.2,
          by simpa using hany.2⟩
      have hce : store.find? (clientExact (strLower (strTrim email))) = none := by
        rw [List.find?_eq_none]
        intro inv hinv hcontra
        have := clientExact_imp _ he inv hcontra
        rw [(htiers inv hinv).1] at this
        exact absurd this (by simp)
      have hcp : store.find? (clientPartialMatch (strLower (strTrim email))) = none := by
        rw [List.find?_eq_none]
        intro inv hinv hcontra
        have := clientPartial_imp _ he inv hcontra
        rw [(htiers inv hinv).2.1] at this
        exact absurd this (by simp)
      have hil : (ilikeMatches (strLower (strTrim email)) store).head? = none := by
        unfold ilikeMatches
        rw [head?_filter, List.find?_eq_none]
        intro inv hinv hcontra
        have := ilike_imp _ inv hcontra
        rw [(htiers inv hinv).2.1] at this
        exact absurd this (by simp)
      have hres : verifyEmail store [] email = none := by
        unfold verifyEmail
        rw [if_neg (by simp [hne]), hce, hcp, hil]
        rfl
      rw [hres]
      refine ⟨⟨fun _ => htiers, fun _ => rfl⟩, ?_⟩
      intro b hb
      simp at hb
  | cons x rest =>
      have hx : x ∈ store.filter (anyTier (strLower (strTrim email))) :=
        hsub x (List.mem_cons_self _ _)
      have hxs : x ∈ store := (List.mem_filter.1 hx).1
      have hxt : anyTier (strLower (strTrim email)) x = true :=
        (List.mem_filter.1 hx).2
      have ht : tier1 (strLower (strTrim email)) x = true ∨
          tier2 (strLower (strTrim email)) x = true ∨
          tier3 (strLower (strTrim email)) x = true := by
        simpa [anyTier, or_assoc] using hxt
      have hres : verifyEmail store (x :: rest) email = some x.business_id := by
        unfold verifyEmail
        rw [if_neg (by simp [hne])]
        rfl
      rw [hres]
      refine ⟨⟨fun h => absurd h (by simp), fun hall => ?_⟩, ?_⟩
      · exfalso
        have h := hall x hxs
        rcases ht with h1 | h2 | h3
        · rw [h.1] at h1; exact absurd h1 (by simp)
        · rw [h.2.1] at h2; exact absurd h2 (by simp)
        · rw [h.2.2] at h3; exact absurd h3 (by simp)
      · intro b hb
        have hbx : x.business_id = b := by simpa using hb
        exact ⟨x, hxs, hbx, ht⟩

/-- Witness for C6 (amended): a store holding `tester@gmail.com` queried with
the mixed-case `"Tester@Gmail.com "`, the singleton union result — the
resolved business id belongs to a tier-matching invitation. -/
theorem C6_matcher_amended_witness :
    ∃ inv ∈ [(⟨some "tester@gmail.com", "b1"⟩ : Invitation)],
      inv.business_id = "b1" ∧
        (tier1 (strLower (strTrim "Tester@Gmail.com ")) inv = true ∨
          tier2 (strLower (strTrim "Tester@Gmail.com ")) inv = true ∨
          tier3 (strLower (strTrim "Tester@Gmail.com ")) inv = true) :=
  (C6_matcher_amended [⟨some "tester@gmail.com", "b1"⟩]
      [⟨some "tester@gmail.com", "b1"⟩] "Tester@Gmail.com "
      (by decide) (by decide)).2 "b1" (by decide)

end QuickQuotes
